import Mathlib

/-!
Verification development for the chat_cli client (src/run.py, src/listen_chat.py,
src/send_to_chat.py, src/common.py, src/settings.py).

Strings are modelled as lists of characters (`Str`).  A network stream is
modelled as the list of raw lines the remote delivers before a clean close;
`readline` pops the next line and returns the empty string once the stream is
exhausted, matching asyncio's StreamReader.readline which returns b'' at EOF
rather than raising.  Queue pushes and wire writes are recorded as traces so
that ordering claims can be stated positionally.
-/

set_option maxHeartbeats 1000000

namespace ChatCli

/-- Strings are modelled as lists of characters. -/
abbrev Str := List Char

/-- The line terminator of the wire protocol and the history file. -/
def nl : Char := '\n'

/-- Python str.split for a single-newline separator: splitting the empty
string yields one empty chunk; each newline starts a new chunk. -/
def pySplitNl : Str → List Str
  | [] => [[]]
  | c :: cs =>
    if c = nl then [] :: pySplitNl cs
    else
      match pySplitNl cs with
      | [] => [[c]]
      | h :: t => (c :: h) :: t

/-- Python str.rstrip with a newline argument: remove every trailing
newline character. -/
def pyRstripNl (s : Str) : Str := (s.reverse.dropWhile (fun c => c = nl)).reverse

/-- Python file.readlines: split the content into lines, keeping each
terminating newline; a final fragment with no terminator is still a line. -/
def pyReadlines : Str → List Str
  | [] => []
  | c :: cs =>
    if c = nl then [nl] :: pyReadlines cs
    else
      match pyReadlines cs with
      | [] => [[c]]
      | h :: t => (c :: h) :: t

/-- Number of newline characters in a string. -/
def countNl : Str → Nat
  | [] => 0
  | c :: cs => (if c = nl then 1 else 0) + countNl cs

/-- asyncio StreamReader.readline over a stream modelled as the list of raw
lines delivered before a clean close: pop the next line, or return the empty
string once the remote has closed and the buffer is drained. -/
def readline : List Str → Str × List Str
  | [] => ([], [])
  | l :: rest => (l, rest)

/-- read_message from src/run.py (the same code as get_message in
src/listen_chat.py): readline, decode, strip the trailing newlines. -/
def read_message (input : List Str) : Str × List Str :=
  (pyRstripNl (readline input).1, (readline input).2)

/-- A push performed by a producer of the message pipeline: either into the
display queue (messages_queue) or into the history-write queue
(chat_history_queue). -/
inductive PushEvent
  | display (m : Str)
  | history (m : Str)
  deriving DecidableEq, Repr

/-- The items a trace pushes into the display queue, in order. -/
def displayPushes : List PushEvent → List Str
  | [] => []
  | PushEvent.display m :: t => m :: displayPushes t
  | PushEvent.history _ :: t => displayPushes t

/-- The items a trace pushes into the history-write queue, in order. -/
def historyPushes : List PushEvent → List Str
  | [] => []
  | PushEvent.display _ :: t => historyPushes t
  | PushEvent.history m :: t => m :: historyPushes t

/-- The message loop of read_msgs in src/run.py: while the reader is not at
end of stream, read one message (read_message pops the next raw line and
strips its newlines) and push it to the display queue and then to the
history-write queue, both with put_nowait. -/
def read_msgs_loop : List Str → List PushEvent
  | [] => []
  | raw :: rest =>
    PushEvent.display (pyRstripNl raw) :: PushEvent.history (pyRstripNl raw) ::
      read_msgs_loop rest

theorem displayPushes_cons_display (m : Str) (t : List PushEvent) :
    displayPushes (PushEvent.display m :: t) = m :: displayPushes t := rfl

theorem read_msgs_loop_display (raws : List Str) :
    displayPushes (read_msgs_loop raws) = raws.map pyRstripNl := by
  induction raws with
  | nil => rfl
  | cons raw rest ih => simp [read_msgs_loop, displayPushes, ih]

theorem read_msgs_loop_history (raws : List Str) :
    historyPushes (read_msgs_loop raws) = raws.map pyRstripNl := by
  induction raws with
  | nil => rfl
  | cons raw rest ih => simp [read_msgs_loop, historyPushes, ih]

theorem read_msgs_loop_get (raws : List Str) (i : Nat) :
    (read_msgs_loop raws)[2 * i]?
        = (raws[i]?).map (fun r => PushEvent.display (pyRstripNl r))
      ∧ (read_msgs_loop raws)[2 * i + 1]?
        = (raws[i]?).map (fun r => PushEvent.history (pyRstripNl r)) := by
  induction raws generalizing i with
  | nil => simp [read_msgs_loop]
  | cons raw rest ih =>
    cases i with
    | zero => simp [read_msgs_loop]
    | succ j =>
      have h2 : 2 * (j + 1) = 2 * j + 1 + 1 := by ring
      rw [h2]
      simpa [read_msgs_loop] using ih j

/-- C1: for every sequence of raw lines delivered on the read connection and
then a clean close, the read_msgs loop pushes exactly one item per line into
the display queue and one into the history-write queue, each queue receiving
the newline-stripped lines in the order sent, and for each line the display
push (trace position 2i) happens before the history push (position 2i+1). -/
theorem read_msgs_fanout (raws : List Str) :
    displayPushes (read_msgs_loop raws) = raws.map pyRstripNl
      ∧ historyPushes (read_msgs_loop raws) = raws.map pyRstripNl
      ∧ (displayPushes (read_msgs_loop raws)).length = raws.length
      ∧ (historyPushes (read_msgs_loop raws)).length = raws.length
      ∧ ∀ i : Nat,
          (read_msgs_loop raws)[2 * i]?
              = (raws[i]?).map (fun r => PushEvent.display (pyRstripNl r))
            ∧ (read_msgs_loop raws)[2 * i + 1]?
              = (raws[i]?).map (fun r => PushEvent.history (pyRstripNl r)) := by
  refine ⟨read_msgs_loop_display raws, read_msgs_loop_history raws, ?_, ?_, ?_⟩
  · rw [read_msgs_loop_display]; simp
  · rw [read_msgs_loop_history]; simp
  · exact read_msgs_loop_get raws

/-- The connection lifecycle events of the gui status enums
(ReadConnectionStateChanged / SendingConnectionStateChanged), as described by
the spec's ConnectionEvent: INITIATED, ESTABLISHED, CLOSED. -/
inductive ConnEvent
  | initiated
  | established
  | closed
  deriving DecidableEq, Repr

/-- An action performed by the write session (or by send_message alone):
a status-queue push, opening the transport, a wire write, a blocking read of
one reply line, showing the invalid-token error dialog, closing the
transport. -/
inductive WriteEvent
  | status (e : ConnEvent)
  | openConn
  | wrote (bytes : Str)
  | readReply
  | errorShown
  | closeConn
  deriving DecidableEq, Repr

/-- The for-loop body of send_message: for each message line, write
line + "\n\n" to the writer, then read exactly one reply line from the
reader before the next line is written.  Returns the wire trace and the
unconsumed part of the reader's stream. -/
def sendSegs : List Str → List Str → List WriteEvent × List Str
  | [], input => ([], input)
  | seg :: segs, input =>
    let step := readline input
    let restRun := sendSegs segs step.2
    (WriteEvent.wrote (seg ++ [nl, nl]) :: WriteEvent.readReply :: restRun.1, restRun.2)

/-- send_message from src/run.py (src/send_to_chat.py has the identical
loop, minus an awaited drain): split the message on embedded newlines and
run the write/acknowledge loop over the resulting lines. -/
def send_message_run (message : Str) (input : List Str) : List WriteEvent × List Str :=
  sendSegs (pySplitNl message) input

/-- Number of wire writes in a write-session trace. -/
def countWrites (tr : List WriteEvent) : Nat :=
  tr.countP (fun e => match e with | WriteEvent.wrote _ => true | _ => false)

/-- Number of reply-line reads in a write-session trace. -/
def countReads (tr : List WriteEvent) : Nat :=
  tr.countP (fun e => match e with | WriteEvent.readReply => true | _ => false)

theorem sendSegs_trace (segs : List Str) (input : List Str) :
    (sendSegs segs input).1
      = segs.flatMap
          (fun seg => [WriteEvent.wrote (seg ++ [nl, nl]), WriteEvent.readReply]) := by
  induction segs generalizing input with
  | nil => rfl
  | cons seg segs ih => simp [sendSegs, ih]

theorem readline_snd (input : List Str) : (readline input).2 = input.tail := by
  cases input <;> rfl

theorem sendSegs_input (segs : List Str) (input : List Str) :
    (sendSegs segs input).2 = input.drop segs.length := by
  induction segs generalizing input with
  | nil => rfl
  | cons seg segs ih =>
    simp only [sendSegs, ih, readline_snd, List.length_cons]
    cases input <;> simp

theorem pySplitNl_ne_nil (s : Str) : pySplitNl s ≠ [] := by
  cases s with
  | nil => simp [pySplitNl]
  | cons c cs =>
    by_cases h : c = nl
    · simp [pySplitNl, h]
    · simp only [pySplitNl, h, if_false]
      cases pySplitNl cs <;> simp

theorem pySplitNl_length (s : Str) : (pySplitNl s).length = countNl s + 1 := by
  induction s with
  | nil => rfl
  | cons c cs ih =>
    by_cases h : c = nl
    · simp [pySplitNl, countNl, h, ih]
      omega
    · simp only [pySplitNl, countNl, h, if_false, if_neg h]
      cases hsplit : pySplitNl cs with
      | nil => exact absurd hsplit (pySplitNl_ne_nil cs)
      | cons hd tl =>
        rw [hsplit] at ih
        simpa using ih

theorem countWrites_flat (segs : List Str) :
    countWrites
        (segs.flatMap
          (fun seg => [WriteEvent.wrote (seg ++ [nl, nl]), WriteEvent.readReply]))
      = segs.length := by
  induction segs with
  | nil => rfl
  | cons s ss ih =>
    simp only [List.flatMap_cons, countWrites, List.countP_append] at ih ⊢
    simp [ih, List.countP_cons]
    omega

theorem countReads_flat (segs : List Str) :
    countReads
        (segs.flatMap
          (fun seg => [WriteEvent.wrote (seg ++ [nl, nl]), WriteEvent.readReply]))
      = segs.length := by
  induction segs with
  | nil => rfl
  | cons s ss ih =>
    simp only [List.flatMap_cons, countReads, List.countP_append] at ih ⊢
    simp [ih, List.countP_cons]
    omega

/-- C5: send_message splits the message on embedded newlines and, for each
resulting line in order, writes the line followed by the blank-line
terminator and then reads exactly one reply line before writing the next;
the trace is the concatenation of write/read pairs in segment order, exactly
one reply line is consumed per segment, and send "a\nb" produces the two
exchanges "a\n\n" then "b\n\n", each acknowledged before the next write. -/
theorem send_message_exchanges (m : Str) (input : List Str) :
    (send_message_run m input).1
        = (pySplitNl m).flatMap
            (fun seg => [WriteEvent.wrote (seg ++ [nl, nl]), WriteEvent.readReply])
      ∧ (send_message_run m input).2 = input.drop (pySplitNl m).length
      ∧ (send_message_run ['a', nl, 'b'] input).1
          = [WriteEvent.wrote ['a', nl, nl], WriteEvent.readReply,
             WriteEvent.wrote ['b', nl, nl], WriteEvent.readReply] := by
  refine ⟨sendSegs_trace _ _, sendSegs_input _ _, ?_⟩
  rw [send_message_run, sendSegs_trace]
  decide

/-- C10: send_message performs exactly countNl m + 1 protocol exchanges
(one write and one awaited reply per segment), and the empty message still
produces one exchange: the write of the bare blank-line terminator followed
by one reply read. -/
theorem send_message_exchange_count (m : Str) (input : List Str) :
    countWrites (send_message_run m input).1 = countNl m + 1
      ∧ countReads (send_message_run m input).1 = countNl m + 1
      ∧ (send_message_run [] input).1
          = [WriteEvent.wrote [nl, nl], WriteEvent.readReply] := by
  refine ⟨?_, ?_, ?_⟩
  · rw [send_message_run, sendSegs_trace, countWrites_flat, pySplitNl_length]
  · rw [send_message_run, sendSegs_trace, countReads_flat, pySplitNl_length]
  · rw [send_message_run, sendSegs_trace]
    decide

/-- The exceptions relevant to the retry decorator of src/listen_chat.py:
the caught tuple is (ConnectionError, asyncio.TimeoutError, socket.gaierror);
anything else (such as InvalidToken) propagates. -/
inductive PyExc
  | connectionError
  | timeoutError
  | gaierror
  | invalidToken
  | otherExc
  deriving DecidableEq, Repr

/-- Whether the exception is a member of the except-clause tuple of retry,
i.e. a transient network failure. -/
def isTransient : PyExc → Bool
  | PyExc.connectionError => true
  | PyExc.timeoutError => true
  | PyExc.gaierror => true
  | _ => false

/-- The outcome of one invocation of the coroutine wrapped by retry: a
normal return or a raised exception. -/
inductive Attempt (α : Type)
  | ok (a : α)
  | raise (e : PyExc)
  deriving DecidableEq, Repr

/-- An observable step of the retry loop: invoking the wrapped coroutine, or
sleeping for a number of time units. -/
inductive RetryEvent
  | call
  | sleep (n : Nat)
  deriving DecidableEq, Repr

/-- RETRY_TIMEOUT from src/listen_chat.py. -/
def RETRY_TIMEOUT : Nat := 10

/-- The retry decorator of src/listen_chat.py, run over a finite prefix of
attempt outcomes (first element = outcome of the first call, and so on).
State: is_first_attempt, initially true.  Each loop iteration calls the
coroutine; a normal return is returned; an exception in the transient tuple
is logged, then either retried at once (clearing is_first_attempt) or
preceded-by-sleep(RETRY_TIMEOUT) retried; any other exception propagates.
Returns the event trace and the final result (none when the outcome prefix
is exhausted with the loop still running). -/
def retryTrace {α : Type} (first : Bool) : List (Attempt α) → List RetryEvent × Option (Except PyExc α)
  | [] => ([], none)
  | Attempt.ok a :: _ => ([RetryEvent.call], some (Except.ok a))
  | Attempt.raise e :: rest =>
    if isTransient e then
      if first then
        let p := retryTrace false rest
        (RetryEvent.call :: p.1, p.2)
      else
        let p := retryTrace false rest
        (RetryEvent.call :: RetryEvent.sleep RETRY_TIMEOUT :: p.1, p.2)
    else ([RetryEvent.call], some (Except.error e))

/-- A fresh invocation of a retry-wrapped coroutine: is_first_attempt starts
true. -/
def retryRun {α : Type} (attempts : List (Attempt α)) : List RetryEvent × Option (Except PyExc α) :=
  retryTrace true attempts

theorem retryTrace_replicate {α : Type} (e : PyExc) (he : isTransient e = true)
    (a : α) (b : Bool) (k : Nat) :
    (retryTrace b (List.replicate k (Attempt.raise e) ++ [Attempt.ok a])).2
      = some (Except.ok a) := by
  induction k generalizing b with
  | zero => simp [retryTrace]
  | succ j ih =>
    cases b <;> simp [retryTrace, he, ih]

/-- C2: under the retry wrapper, the first transient failure (connection
error, timeout, DNS resolution failure) is followed by an immediate
re-invocation with no sleep in between; every later consecutive transient
failure inserts a sleep of RETRY_TIMEOUT = 10 units before the next
invocation; a failure outside the transient tuple (InvalidToken) propagates
after exactly one invocation with no retry and no sleep; and any finite
number of transient failures followed by a success still succeeds
(unbounded attempt count). -/
theorem retry_policy {α : Type} (e : PyExc) (he : isTransient e = true)
    (rest : List (Attempt α)) (k : Nat) (a : α) :
    (retryRun (Attempt.raise e :: rest)).1 = RetryEvent.call :: (retryTrace false rest).1
      ∧ (retryRun (Attempt.raise e :: rest)).2 = (retryTrace false rest).2
      ∧ (retryTrace false (Attempt.raise e :: rest)).1
          = RetryEvent.call :: RetryEvent.sleep RETRY_TIMEOUT :: (retryTrace false rest).1
      ∧ RETRY_TIMEOUT = 10
      ∧ retryRun (Attempt.raise PyExc.invalidToken :: rest)
          = ([RetryEvent.call], some (Except.error PyExc.invalidToken))
      ∧ (retryRun (List.replicate k (Attempt.raise e) ++ [Attempt.ok a])).2
          = some (Except.ok a) := by
  refine ⟨?_, ?_, ?_, rfl, ?_, ?_⟩
  · simp [retryRun, retryTrace, he]
  · simp [retryRun, retryTrace, he]
  · simp [retryTrace, he]
  · simp [retryRun, retryTrace, isTransient]
  · exact retryTrace_replicate e he a true k

/-- Witness for C2 at a concrete input: a connection error on the first
attempt, with two transient failures then a success as the attempt script. -/
theorem retry_policy_witness :
    isTransient PyExc.connectionError = true
      ∧ (retryRun (Attempt.raise PyExc.connectionError
            :: [Attempt.raise PyExc.connectionError, Attempt.ok 0])).1
          = RetryEvent.call
              :: (retryTrace false [Attempt.raise PyExc.connectionError, Attempt.ok 0]).1
      ∧ (retryRun (List.replicate 2 (Attempt.raise PyExc.connectionError)
            ++ [Attempt.ok 0])).2 = some (Except.ok 0) :=
  ⟨by decide,
    (retry_policy PyExc.connectionError (by decide)
      [Attempt.raise PyExc.connectionError, Attempt.ok 0] 2 0).1,
    (retry_policy PyExc.connectionError (by decide)
      [Attempt.raise PyExc.connectionError, Attempt.ok 0] 2 0).2.2.2.2.2⟩

/-- The file content made of the given lines, each terminated by a
newline. -/
def joinNl (lines : List Str) : Str := (lines.map (fun l => l ++ [nl])).flatten

/-- One history-store append, as performed by save_msgs in src/run.py (and
log_message in src/listen_chat.py): open the file for append and write
message + "\n". -/
def histAppend (content message : Str) : Str := content ++ (message ++ [nl])

/-- Reading the whole history back the way load_old_messages consumes it:
readlines, then strip the trailing newlines of every line. -/
def readAll (content : Str) : List Str := (pyReadlines content).map pyRstripNl

/-- load_old_messages from src/run.py, given the history file content: read
all lines, push each newline-stripped line to the display queue
(messages_queue) with put_nowait; the history-write queue is never
touched. -/
def load_old_messages (content : Str) : List PushEvent :=
  (pyReadlines content).map (fun line => PushEvent.display (pyRstripNl line))

/-- The failure aiofiles.open(history_file, 'r') raises when the file does
not exist. -/
inductive FileErr
  | fileNotFound
  deriving DecidableEq, Repr

/-- load_old_messages including the file open, over a filesystem modelled as
the optional content of the history file: when the file does not exist, the
open raises FileNotFoundError and nothing in load_old_messages or its caller
(asyncio.gather in start_chat) handles it; otherwise the pushes happen. -/
def load_old_messages_run (file : Option Str) : Except FileErr (List PushEvent) :=
  match file with
  | none => Except.error FileErr.fileNotFound
  | some content => Except.ok (load_old_messages content)

theorem dropWhile_no_nl (s : Str) (h : nl ∉ s) :
    s.dropWhile (fun c => c = nl) = s := by
  cases s with
  | nil => rfl
  | cons c cs =>
    have hc : ¬(c = nl) := by
      intro hcontra
      exact h (by simp [hcontra])
    simp [List.dropWhile_cons, hc]

theorem pyRstripNl_line (l : Str) (hl : nl ∉ l) : pyRstripNl (l ++ [nl]) = l := by
  have h1 : (l ++ [nl]).reverse = nl :: l.reverse := by simp
  have h2 : nl ∉ l.reverse := by simpa using hl
  unfold pyRstripNl
  rw [h1, List.dropWhile_cons]
  simp [dropWhile_no_nl _ h2]

theorem pyReadlines_line (l : Str) (hl : nl ∉ l) (rest : Str) :
    pyReadlines (l ++ nl :: rest) = (l ++ [nl]) :: pyReadlines rest := by
  induction l with
  | nil => simp [pyReadlines]
  | cons c cs ih =>
    have hc : ¬(c = nl) := by
      intro hcontra
      exact hl (by simp [hcontra])
    have hcs : nl ∉ cs := fun hmem => hl (List.mem_cons_of_mem c hmem)
    simp only [List.cons_append, pyReadlines, hc, if_false, if_neg hc]
    rw [List.append_eq, ih hcs]

theorem readAll_joinNl (lines : List Str) (h : ∀ l ∈ lines, nl ∉ l) :
    readAll (joinNl lines) = lines := by
  induction lines with
  | nil => rfl
  | cons l ls ih =>
    have hl : nl ∉ l := h l (List.mem_cons_self l ls)
    have hls : ∀ x ∈ ls, nl ∉ x := fun x hx => h x (List.mem_cons_of_mem l hx)
    have hjoin : joinNl (l :: ls) = l ++ nl :: joinNl ls := by
      simp [joinNl]
    rw [readAll, hjoin, pyReadlines_line l hl, List.map_cons, pyRstripNl_line l hl]
    exact congrArg (l :: ·) (ih hls)

theorem displayPushes_map_display (f : Str → Str) (ls : List Str) :
    displayPushes (ls.map (fun l => PushEvent.display (f l))) = ls.map f := by
  induction ls with
  | nil => rfl
  | cons l ls ih => simp [displayPushes, ih]

theorem historyPushes_map_display (f : Str → Str) (ls : List Str) :
    historyPushes (ls.map (fun l => PushEvent.display (f l))) = [] := by
  induction ls with
  | nil => rfl
  | cons l ls ih => simp [historyPushes, ih]

/-- C6: replaying a history file whose content is M newline-terminated lines
pushes exactly those M lines, newline-stripped, into the display queue in
file order, and pushes nothing into the history-write queue (for any file
content at all). -/
theorem load_old_messages_replay (lines : List Str) (h : ∀ l ∈ lines, nl ∉ l) :
    displayPushes (load_old_messages (joinNl lines)) = lines
      ∧ (displayPushes (load_old_messages (joinNl lines))).length = lines.length
      ∧ ∀ content : Str, historyPushes (load_old_messages content) = [] := by
  have hd : displayPushes (load_old_messages (joinNl lines)) = lines := by
    rw [load_old_messages, displayPushes_map_display]
    exact readAll_joinNl lines h
  refine ⟨hd, by rw [hd], fun content => ?_⟩
  rw [load_old_messages, historyPushes_map_display]

/-- Witness for C6 at a concrete two-line history file. -/
theorem load_old_messages_replay_witness :
    (∀ l ∈ [['a'], ['b']], nl ∉ l)
      ∧ displayPushes (load_old_messages (joinNl [['a'], ['b']])) = [['a'], ['b']] :=
  ⟨by decide, (load_old_messages_replay [['a'], ['b']] (by decide)).1⟩

/-- C7 counterexample: when the history file does not exist, replay does not
complete with zero pushes — the file open raises instead. -/
theorem load_old_messages_missing_counterexample :
    load_old_messages_run none ≠ Except.ok [] := by
  simp [load_old_messages_run]

/-- C7 as amended: when the history file does not exist at startup,
load_old_messages raises the file-open error, which propagates unhandled (no
items are pushed because the operation fails instead of completing). -/
theorem load_old_messages_missing :
    load_old_messages_run none = Except.error FileErr.fileNotFound := rfl

/-- C9: appending a newline-free message to a history file made of
newline-terminated lines and reading the history back yields exactly the
prior lines extended by that message. -/
theorem history_append_roundtrip (lines : List Str) (m : Str)
    (hl : ∀ l ∈ lines, nl ∉ l) (hm : nl ∉ m) :
    readAll (histAppend (joinNl lines) m) = lines ++ [m] := by
  have hjoin : histAppend (joinNl lines) m = joinNl (lines ++ [m]) := by
    simp [histAppend, joinNl]
  have hall : ∀ l ∈ lines ++ [m], nl ∉ l := by
    intro l hmem
    rcases List.mem_append.mp hmem with hmem | hmem
    · exact hl l hmem
    · rcases List.mem_singleton.mp hmem with rfl
      exact hm
  rw [hjoin, readAll_joinNl (lines ++ [m]) hall]

/-- Witness for C9 at a concrete file of two lines and a one-character
message. -/
theorem history_append_roundtrip_witness :
    (∀ l ∈ [['a'], ['b']], nl ∉ l) ∧ nl ∉ (['c'] : Str)
      ∧ readAll (histAppend (joinNl [['a'], ['b']]) ['c']) = [['a'], ['b'], ['c']] :=
  ⟨by decide, by decide, history_append_roundtrip [['a'], ['b']] ['c'] (by decide) (by decide)⟩

/-- The failure vocabulary of the spec's Transport contract. -/
inductive TransportErr
  | endOfStream
  deriving DecidableEq, Repr

/-- Modelled from the spec: the Transport contract readLine() -> string,
failing with EndOfStream when the remote closed cleanly; the code's actual
readLine is read_message, and this definition follows the spec's words so
the two can be compared. -/
def readLine_spec (input : List Str) : Except TransportErr (Str × List Str) :=
  match input with
  | [] => Except.error TransportErr.endOfStream
  | l :: rest => Except.ok (pyRstripNl l, rest)

/-- C8 counterexample: on a cleanly closed stream with no pending data, the
code's readLine (read_message) returns the empty string instead of failing
with EndOfStream as the spec's contract requires. -/
theorem read_message_eof_counterexample :
    Except.ok (read_message []) ≠ readLine_spec [] := by
  simp [read_message, readline, readLine_spec]

/-- C8 as amended: read_message returns the received line with its trailing
newline stripped while a line is available, and returns the empty string
(without failing) once the remote has closed cleanly; the callers detect end
of stream with at_eof instead of an exception. -/
theorem read_message_amended (s : Str) (rest : List Str) (h : nl ∉ s) :
    read_message ((s ++ [nl]) :: rest) = (s, rest)
      ∧ read_message [] = (([] : Str), ([] : List Str)) := by
  constructor
  · rw [read_message]
    simp [readline, pyRstripNl_line s h]
  · rfl

/-- Witness for C8's amended statement at a concrete received line. -/
theorem read_message_amended_witness :
    nl ∉ (['h', 'i'] : Str)
      ∧ read_message ((['h', 'i'] ++ [nl]) :: ([] : List Str)) = (['h', 'i'], []) :=
  ⟨by decide, (read_message_amended ['h', 'i'] [] (by decide)).1⟩

/-- Abstraction of json.loads applied to the authorization reply line: the
JSON literal null, a JSON object (its fields, with only the presence of the
nickname field mattering), or some other JSON value; none models a line
json.loads rejects (JSONDecodeError). -/
inductive JsonValue
  | null
  | obj (fields : List (Str × Str))
  | otherJson
  deriving DecidableEq, Repr

/-- The exceptions the authorize path can raise: InvalidToken raised
explicitly on a null record, json.JSONDecodeError from json.loads, KeyError
from the nickname-field access on an object without that field, TypeError
from subscripting a non-object value. -/
inductive AuthError
  | invalidToken
  | jsonDecodeError
  | keyError
  | typeError
  deriving DecidableEq, Repr

/-- CREDS_NICKNAME_FIELD from src/run.py. -/
def CREDS_NICKNAME_FIELD : Str := ['n', 'i', 'c', 'k', 'n', 'a', 'm', 'e']

/-- authorize from src/run.py, over a reader modelled as the list of
delivered lines and a json.loads oracle jl giving the parse of a raw line:
read and discard the token prompt, write user_token + "\n", read one line
and parse it; a null record raises InvalidToken; otherwise the nickname
field is accessed (for the log line) and then the welcome line is read and
discarded.  Returns the result, the unconsumed input, and the event
trace. -/
def authorize (jl : Str → Option JsonValue) (user_token : Str) (input : List Str) :
    Except AuthError Unit × List Str × List WriteEvent :=
  let prompt := readline input
  let evs0 := [WriteEvent.readReply, WriteEvent.wrote (user_token ++ [nl])]
  let reply := readline prompt.2
  let evs1 := evs0 ++ [WriteEvent.readReply]
  match jl reply.1 with
  | none => (Except.error AuthError.jsonDecodeError, reply.2, evs1)
  | some JsonValue.null => (Except.error AuthError.invalidToken, reply.2, evs1)
  | some (JsonValue.obj fields) =>
    match fields.lookup CREDS_NICKNAME_FIELD with
    | none => (Except.error AuthError.keyError, reply.2, evs1)
    | some _ =>
      let welcome := readline reply.2
      (Except.ok (), welcome.2, evs1 ++ [WriteEvent.readReply])
  | some JsonValue.otherJson => (Except.error AuthError.typeError, reply.2, evs1)

/-- The while-loop of send_messages: pop each queued outbound message and
send it with send_message (run here over the finite list of queued
messages). -/
def drainOutbound : List Str → List Str → List WriteEvent × List Str
  | [], input => ([], input)
  | m :: ms, input =>
    let s := send_message_run m input
    let r := drainOutbound ms s.2
    (s.1 ++ r.1, r.2)

/-- send_messages from src/run.py together with its chat_connection context
manager: push INITIATED to the status queue before opening the connection,
open the transport, authorize with the token.  An InvalidToken failure is
caught by chat_connection, which shows the error dialog and yields
(None, None), making the send_messages body return without touching the
outbound queue; any other authorize failure propagates after the finally
block closes the transport; on success the body drains the outbound queue.
Returns the event trace and the propagated exception, if any. -/
def send_messages_run (jl : Str → Option JsonValue) (token : Str)
    (input : List Str) (outbound : List Str) : List WriteEvent × Option AuthError :=
  let pre := [WriteEvent.status ConnEvent.initiated, WriteEvent.openConn]
  match authorize jl token input with
  | (Except.error AuthError.invalidToken, _, aevs) =>
    (pre ++ aevs ++ [WriteEvent.errorShown, WriteEvent.closeConn], none)
  | (Except.error e, _, aevs) =>
    (pre ++ aevs ++ [WriteEvent.closeConn], some e)
  | (Except.ok _, rest, aevs) =>
    let d := drainOutbound outbound rest
    (pre ++ aevs ++ d.1 ++ [WriteEvent.closeConn], none)

/-- The wire writes of a write-session trace, in order. -/
def writesOf (tr : List WriteEvent) : List Str :=
  tr.filterMap (fun e => match e with | WriteEvent.wrote s => some s | _ => none)

/-- The status-queue pushes of a write-session trace, in order. -/
def statusEventsW (tr : List WriteEvent) : List ConnEvent :=
  tr.filterMap (fun e => match e with | WriteEvent.status ev => some ev | _ => none)

theorem authorize_no_status (jl : Str → Option JsonValue) (token : Str) (input : List Str) :
    statusEventsW (authorize jl token input).2.2 = [] := by
  cases hjl : jl ((readline (readline input).2).1) with
  | none => simp [authorize, hjl, statusEventsW]
  | some v =>
    cases v with
    | null => simp [authorize, hjl, statusEventsW]
    | obj fields =>
      cases hlk : fields.lookup CREDS_NICKNAME_FIELD with
      | none => simp [authorize, hjl, hlk, statusEventsW]
      | some x => simp [authorize, hjl, hlk, statusEventsW]
    | otherJson => simp [authorize, hjl, statusEventsW]

theorem statusEventsW_sendSegs (segs : List Str) (input : List Str) :
    statusEventsW (sendSegs segs input).1 = [] := by
  rw [sendSegs_trace]
  induction segs with
  | nil => rfl
  | cons s ss ih =>
    simpa [statusEventsW, List.flatMap_cons, List.filterMap_append] using ih

theorem statusEventsW_drain (outbound : List Str) (input : List Str) :
    statusEventsW (drainOutbound outbound input).1 = [] := by
  induction outbound generalizing input with
  | nil => rfl
  | cons m ms ih =>
    have hs := statusEventsW_sendSegs (pySplitNl m) input
    simp only [drainOutbound, statusEventsW, List.filterMap_append] at hs ⊢
    rw [send_message_run] at *
    simp [hs]
    have := ih (sendSegs (pySplitNl m) input).2
    simpa [statusEventsW] using this

/-- C3: authorize reads and discards the prompt line, writes the token
followed by the line terminator, and reads one line which it parses; it
fails with InvalidToken exactly when that line parses to the JSON null; on
success it reads and discards the welcome line before returning; and when
the reply is null, the write session shows the user-visible error, writes
nothing on the wire beyond the token line (so no outbound-queue item is
ever sent), and propagates no exception. -/
theorem authorize_invalid_token (jl : Str → Option JsonValue) (token : Str)
    (input : List Str) (outbound : List Str) :
    (authorize jl token input).2.2.take 3
        = [WriteEvent.readReply, WriteEvent.wrote (token ++ [nl]), WriteEvent.readReply]
      ∧ ((authorize jl token input).1 = Except.error AuthError.invalidToken
          ↔ jl ((readline (readline input).2).1) = some JsonValue.null)
      ∧ ((authorize jl token input).1 = Except.ok () →
          (authorize jl token input).2.2
            = [WriteEvent.readReply, WriteEvent.wrote (token ++ [nl]),
               WriteEvent.readReply, WriteEvent.readReply])
      ∧ (jl ((readline (readline input).2).1) = some JsonValue.null →
          WriteEvent.errorShown ∈ (send_messages_run jl token input outbound).1
            ∧ writesOf (send_messages_run jl token input outbound).1 = [token ++ [nl]]
            ∧ (send_messages_run jl token input outbound).2 = none) := by
  cases hjl : jl ((readline (readline input).2).1) with
  | none => simp [authorize, hjl, send_messages_run, writesOf]
  | some v =>
    cases v with
    | null => simp [authorize, hjl, send_messages_run, writesOf]
    | obj fields =>
      cases hlk : fields.lookup CREDS_NICKNAME_FIELD with
      | none => simp [authorize, hjl, hlk, send_messages_run, writesOf]
      | some x => simp [authorize, hjl, hlk, send_messages_run, writesOf]
    | otherJson => simp [authorize, hjl, send_messages_run, writesOf]

/-- Witness for C3: a server whose authorization reply parses to null, a
concrete token, a three-line server script and one queued outbound
message. -/
theorem authorize_invalid_token_witness :
    (fun _ : Str => some JsonValue.null) ((readline (readline [[]]).2).1)
        = some JsonValue.null
      ∧ (WriteEvent.errorShown
            ∈ (send_messages_run (fun _ => some JsonValue.null) ['t'] [[]] [['x']]).1
          ∧ writesOf (send_messages_run (fun _ => some JsonValue.null) ['t'] [[]] [['x']]).1
              = [['t'] ++ [nl]]
          ∧ (send_messages_run (fun _ => some JsonValue.null) ['t'] [[]] [['x']]).2 = none) :=
  ⟨rfl, (authorize_invalid_token (fun _ => some JsonValue.null) ['t'] [[]] [['x']]).2.2.2 rfl⟩

/-- An action of the read session: a status-queue push, opening the
transport, a pipeline queue push, closing the transport. -/
inductive SessionAction
  | status (e : ConnEvent)
  | openConn
  | push (p : PushEvent)
  | closeConn
  deriving DecidableEq, Repr

/-- The read session of src/run.py: chat_connection (read variant, no user
token) wrapping the read_msgs message loop.  chat_connection pushes
connection_type.INITIATED to the status queue with put_nowait, opens the
connection, yields to the loop, and in its finally block closes the writer.
No other status value is pushed anywhere in src/run.py. -/
def read_session_trace (raws : List Str) : List SessionAction :=
  SessionAction.status ConnEvent.initiated :: SessionAction.openConn ::
    ((read_msgs_loop raws).map SessionAction.push ++ [SessionAction.closeConn])

/-- The status-queue pushes of a read-session trace, in order. -/
def statusEvents (tr : List SessionAction) : List ConnEvent :=
  tr.filterMap (fun a => match a with | SessionAction.status e => some e | _ => none)

theorem statusEvents_map_push (ps : List PushEvent) :
    statusEvents (ps.map SessionAction.push) = [] := by
  induction ps with
  | nil => rfl
  | cons p ps ih =>
    simp only [List.map_cons, statusEvents, List.filterMap_cons] at ih ⊢
    exact ih

/-- C4 counterexample: for a session receiving one line and then a clean
close, the status queue receives only the Initiated event; neither
Established nor Closed is ever emitted. -/
theorem session_lifecycle_counterexample :
    ConnEvent.established ∉ statusEvents (read_session_trace [['h', 'i', nl]])
      ∧ ConnEvent.closed ∉ statusEvents (read_session_trace [['h', 'i', nl]])
      ∧ statusEvents (read_session_trace [['h', 'i', nl]]) = [ConnEvent.initiated] := by
  decide

/-- C4 as amended: for every session (read or write), the only lifecycle
event emitted is Initiated, pushed before the transport is opened; the
transport is closed on loop exit, but no Established and no Closed event is
ever emitted. -/
theorem session_status_only_initiated (raws : List Str) (jl : Str → Option JsonValue)
    (token : Str) (input : List Str) (outbound : List Str) :
    statusEvents (read_session_trace raws) = [ConnEvent.initiated]
      ∧ (read_session_trace raws).head? = some (SessionAction.status ConnEvent.initiated)
      ∧ (read_session_trace raws).getLast? = some SessionAction.closeConn
      ∧ statusEventsW (send_messages_run jl token input outbound).1
          = [ConnEvent.initiated] := by
  refine ⟨?_, rfl, ?_, ?_⟩
  · have h := statusEvents_map_push (read_msgs_loop raws)
    simp [statusEvents] at h
    simp [read_session_trace, statusEvents, List.filterMap_append, h]
  · rw [read_session_trace, ← List.cons_append, ← List.cons_append]
    exact List.getLast?_concat _
  · rcases hA : authorize jl token input with ⟨res, rest2, aevs⟩
    have hnos : statusEventsW aevs = [] := by
      have h := authorize_no_status jl token input
      rw [hA] at h
      exact h
    cases res with
    | error e =>
      cases e <;>
        simp_all [send_messages_run, statusEventsW, List.filterMap_append]
    | ok u =>
      have hd := statusEventsW_drain outbound rest2
      simp_all [send_messages_run, statusEventsW, List.filterMap_append]

end ChatCli
